import Mathlib

/-!
Verification of the fan-group aggregation component
(`custom_components/fan_group/fan.py`).

The development shallowly embeds the module's state-reduction logic
(`FanGroup.async_update` together with the helpers `_find_state_attributes`,
`_mean_int`, `_reduce_attribute`), the command fan-out methods
(`async_turn_on`, `async_turn_off`, `async_oscillate`, `async_set_speed`,
`async_set_direction`) and the configuration default, and proves the spec's
testable properties about them.

Modelling conventions:
* Python attribute values that can occur on a fan member state are modelled
  by the inductive type `PyVal` (strings, ints, bools, lists of strings).
* Python `==` on such values identifies `True`/`1` and `False`/`0`
  (bool is an int subclass); this is modelled by normalising with `pyKey`.
* Operations that can raise a Python exception (the `int(sum(..)/len(..))`
  mean over non-numeric values, `set().union` over a non-iterable,
  `Counter` over an unhashable value, `|=` over a non-numeric value)
  are modelled in the `Except String` monad, returning
  `Except.error "TypeError"` exactly where CPython would raise `TypeError`.
* Python string objects passed to the command methods are modelled by
  `PyStr`, a string content together with an object identity tag, so that
  the source's `speed is SPEED_OFF` identity test (as opposed to an `==`
  equality test) is represented faithfully.
-/

/-- A Python value that can appear as a fan state attribute:
a string, an int, a bool, or a list of strings. -/
inductive PyVal where
  | pstr (s : String)
  | pint (n : Int)
  | pbool (b : Bool)
  | plist (l : List String)
deriving DecidableEq

/-- Normalisation giving Python `==` semantics on `PyVal`:
`True == 1` and `False == 0` hold in Python because `bool` is an `int`
subclass, so booleans are normalised to their integer value. -/
def pyKey : PyVal → PyVal
  | .pbool b => .pint (if b then 1 else 0)
  | v => v

/-- Python `==` on attribute values. -/
def pyEq (a b : PyVal) : Bool := pyKey a == pyKey b

/-- Python numeric coercion: ints are themselves, bools are 0/1
(usable by `sum`, `/`, `|`); strings and lists are not numbers. -/
def pyNum : PyVal → Option Int
  | .pint n => some n
  | .pbool b => some (if b then 1 else 0)
  | _ => none

/-- Whether a value is hashable in Python (usable as a `Counter` key):
lists are unhashable, everything else here is hashable. -/
def pyHashable : PyVal → Bool
  | .plist _ => false
  | _ => true

/-- Iterating a value as `set().union(*...)` does: a list yields its
elements, a string yields its characters, ints/bools raise `TypeError`. -/
def pyIterStrs : PyVal → Except String (List String)
  | .plist l => .ok l
  | .pstr s => .ok (s.toList.map String.singleton)
  | _ => .error "TypeError"

/-- A member state as read from the state store: a status string
(`state.state`) and the attribute mapping (`state.attributes`). -/
structure PState where
  state : String
  attributes : List (String × PyVal)
deriving DecidableEq

/-- Model of `STATE_ON` from `homeassistant.const`. -/
def STATE_ON : String := "on"

/-- Model of `STATE_UNAVAILABLE` from `homeassistant.const`. -/
def STATE_UNAVAILABLE : String := "unavailable"

/-- Model of `ATTR_SPEED` from `homeassistant.components.fan`. -/
def ATTR_SPEED : String := "speed"

/-- Model of `ATTR_SPEED_LIST` from `homeassistant.components.fan`. -/
def ATTR_SPEED_LIST : String := "speed_list"

/-- Model of `ATTR_OSCILLATING` from `homeassistant.components.fan`. -/
def ATTR_OSCILLATING : String := "oscillating"

/-- Model of `ATTR_DIRECTION` from `homeassistant.components.fan`. -/
def ATTR_DIRECTION : String := "direction"

/-- Model of `ATTR_SUPPORTED_FEATURES` from `homeassistant.const`. -/
def ATTR_SUPPORTED_FEATURES : String := "supported_features"

/-- Model of `SUPPORT_SET_SPEED` capability bit. -/
def SUPPORT_SET_SPEED : Int := 1

/-- Model of `SUPPORT_OSCILLATE` capability bit. -/
def SUPPORT_OSCILLATE : Int := 2

/-- Model of `SUPPORT_DIRECTION` capability bit. -/
def SUPPORT_DIRECTION : Int := 4

/-- Model of `SUPPORT_GROUP_FAN = SUPPORT_DIRECTION | SUPPORT_OSCILLATE | SUPPORT_SET_SPEED`
(fan.py line 49). -/
def SUPPORT_GROUP_FAN : Int :=
  Int.lor SUPPORT_DIRECTION (Int.lor SUPPORT_OSCILLATE SUPPORT_SET_SPEED)

/-- Model of `_find_state_attributes(states, key)` (fan.py line 240): the values of
attribute `key` over `states` in order, skipping states where it is absent
(`attributes.get(key)` is `None`). -/
def findStateAttributes (states : List PState) (key : String) : List PyVal :=
  states.filterMap (fun s => s.attributes.lookup key)

/-- Python's `sum`/`|`-style element-wise numeric view of a list of values:
`some` of the integer views when every element is numeric, else `none`
(the spot where CPython raises `TypeError`). -/
def mapPyNum : List PyVal → Option (List Int)
  | [] => some []
  | v :: vs =>
    match pyNum v, mapPyNum vs with
    | some n, some ns => some (n :: ns)
    | _, _ => none

/-- Model of `_mean_int(*args) = int(sum(args) / len(args))` (fan.py line 247):
the arithmetic mean truncated toward zero (`int()` of the true-division
float), raising `TypeError` when a non-numeric value reaches `sum`. -/
def meanInt (args : List PyVal) : Except String PyVal :=
  match mapPyNum args with
  | some ns => .ok (.pint (Int.tdiv ns.sum (ns.length : Int)))
  | none => .error "TypeError"

/-- Model of `_reduce_attribute(states, key, default=None, reduce=_mean_int)`
(fan.py line 255): collect the attribute over `states`; none collected
gives `default`, exactly one is returned unchanged, two or more are
combined with `_mean_int` (the only combiner the module ever passes). -/
def reduceAttribute (states : List PState) (key : String)
    (default : Option PyVal) : Except String (Option PyVal) :=
  match findStateAttributes states key with
  | [] => .ok default
  | [a] => .ok (some a)
  | a :: b :: rest =>
    match meanInt (a :: b :: rest) with
    | .ok v => .ok (some v)
    | .error e => .error e

/-- Number of occurrences of `v`'s Python `==`-class in `xs`
(a `Counter` count). -/
def pyCount (xs : List PyVal) (v : PyVal) : Nat :=
  (xs.filter (fun w => pyEq w v)).length

/-- Index of the first element of `xs` in `v`'s Python `==`-class
("first encountered" position used by the `Counter` tie-break). -/
def pyIdxOf (xs : List PyVal) (v : PyVal) : Nat :=
  xs.findIdx (fun w => pyEq w v)

/-- The distinct values of `xs` in first-occurrence order: the key order of
`Counter(xs)` (Python dicts preserve insertion order, and a repeated value
keeps its first key object). -/
def pyFirstOccs : List PyVal → List PyVal
  | [] => []
  | x :: t => x :: (pyFirstOccs t).filter (fun w => !pyEq w x)

/-- Model of `max`-style fold used by `heapq.nlargest(1, ...)` inside
`Counter.most_common(1)`: keeps the current best on ties, so the earliest
element of maximal measure wins. -/
def foldMax (c : PyVal → Nat) (d : PyVal) (ds : List PyVal) : PyVal :=
  ds.foldl (fun b v => if c b < c v then v else b) d

/-- Model of `Counter(xs).most_common(1)[0][0]` for nonempty `xs` (and `none` for
empty `xs`): the first-encountered value of maximal multiplicity. -/
def mostCommon1 (xs : List PyVal) : Option PyVal :=
  match pyFirstOccs xs with
  | [] => none
  | d :: ds => some (foldMax (pyCount xs) d ds)

/-- The `_speed` update step (fan.py lines 206-210): `None` when no speed
was collected, otherwise the plurality vote via `Counter.most_common(1)`;
`Counter` raises `TypeError` on an unhashable (list) value. -/
def speedAgg (vs : List PyVal) : Except String (Option PyVal) :=
  if vs.all pyHashable then .ok (mostCommon1 vs) else .error "TypeError"

/-- Element-wise `pyIterStrs`, erroring where `set().union(*vs)` would. -/
def mapIterStrs : List PyVal → Except String (List (List String))
  | [] => .ok []
  | v :: vs =>
    match pyIterStrs v, mapIterStrs vs with
    | .ok l, .ok ls => .ok (l :: ls)
    | .error e, _ => .error e
    | _, .error e => .error e

/-- The `_speed_list` update step (fan.py lines 201-204): `None` when no
member supplies the attribute, otherwise `list(set().union(*lists))`,
i.e. the set union of the supplied collections (the produced Python list
order is unspecified, so the aggregate is modelled as the `Finset`). -/
def speedListAgg (vs : List PyVal) : Except String (Option (Finset String)) :=
  match vs with
  | [] => .ok none
  | _ =>
    match mapIterStrs vs with
    | .ok ls => .ok (some (ls.foldl (fun acc l => acc ∪ l.toFinset) ∅))
    | .error e => .error e

/-- The `_supported_features` accumulation loop (fan.py lines 212-214):
`acc |= support` over the collected values, `TypeError` on a non-numeric
value. -/
def orFoldFeatures : List PyVal → Int → Except String Int
  | [], acc => .ok acc
  | v :: vs, acc =>
    match pyNum v with
    | some n => orFoldFeatures vs (Int.lor acc n)
    | none => .error "TypeError"

/-- The aggregate state owned by the group entity: the fields written by
`async_update` (fan.py lines 189-216). -/
structure FanGroupState where
  is_on : Bool
  available : Bool
  direction : Option PyVal
  oscillating : Option PyVal
  speed_list : Option (Finset String)
  speed : Option PyVal
  supported_features : Int
deriving DecidableEq

/-- Model of `states = list(filter(None, all_states))` (fan.py line 192): the
resolvable member states, unresolvable members (`None`) dropped. -/
def statesOf (allStates : List (Option PState)) : List PState :=
  allStates.filterMap id

/-- Model of `on_states` (fan.py line 193): the resolvable members whose status is
`STATE_ON`. -/
def onStatesOf (allStates : List (Option PState)) : List PState :=
  (statesOf allStates).filter (fun s => s.state == STATE_ON)

/-- Model of `FanGroup.async_update` (fan.py lines 189-216) as a function from the
snapshot of member states (`None` for an unresolvable member) to the new
aggregate state, in the `Except` monad: an `error` is a `TypeError` raised
by one of the reduction steps, in source order (direction, oscillating,
speed_list, speed, supported_features). -/
def asyncUpdate (allStates : List (Option PState)) : Except String FanGroupState :=
  let states := statesOf allStates
  let onStates := onStatesOf allStates
  match reduceAttribute onStates ATTR_DIRECTION none,
        reduceAttribute onStates ATTR_OSCILLATING none with
  | .error e, _ => .error e
  | .ok _, .error e => .error e
  | .ok dir, .ok osc =>
    match speedListAgg (findStateAttributes states ATTR_SPEED_LIST) with
    | .error e => .error e
    | .ok sl =>
      match speedAgg (findStateAttributes states ATTR_SPEED) with
      | .error e => .error e
      | .ok sp =>
        match orFoldFeatures (findStateAttributes states ATTR_SUPPORTED_FEATURES) 0 with
        | .error e => .error e
        | .ok feat =>
          .ok { is_on := decide (0 < onStates.length)
                available := states.any (fun s => s.state != STATE_UNAVAILABLE)
                direction := dir
                oscillating := osc
                speed_list := sl
                speed := sp
                supported_features := Int.land feat SUPPORT_GROUP_FAN }

/-- A Python `str` object as passed to the command methods: its text
content together with an object identity tag. Two objects with the same
content need not be the same object (`==` holds, `is` need not), e.g. a
string parsed from a JSON service payload versus an interned literal. -/
structure PyStr where
  content : String
  ident : Nat
deriving DecidableEq

/-- The module's `SPEED_OFF` constant object (content `"off"`); tag 0 is
reserved for this interned constant. -/
def SPEED_OFF : PyStr := { content := "off", ident := 0 }

/-- One abstract fan-out call handed to the external dispatcher
(`hass.services.async_call(fan.DOMAIN, service, data, blocking=True)`),
with the full member-id list as target. -/
inductive ServiceCall where
  | turnOn (entityIds : List String) (speed : Option PyStr)
  | turnOff (entityIds : List String)
  | setSpeed (entityIds : List String) (speed : PyStr)
  | oscillate (entityIds : List String) (oscillating : Bool)
  | setDirection (entityIds : List String) (direction : PyStr)
deriving DecidableEq

/-- The group entity: its static name and member-id list plus the
last-computed aggregate state. -/
structure FanGroup where
  name : String
  entityIds : List String
  agg : FanGroupState
deriving DecidableEq

/-- Model of `FanGroup.async_turn_off` (fan.py line 146): issue one turn-off
fan-out; no entity field is assigned. -/
def asyncTurnOff (g : FanGroup) : FanGroup × List ServiceCall :=
  (g, [ServiceCall.turnOff g.entityIds])

/-- Model of `FanGroup.async_turn_on` (fan.py line 133): `if speed is SPEED_OFF`
(object identity, `None is SPEED_OFF` being false) delegate to turn-off,
else one turn-on fan-out carrying `speed` only when it was provided. -/
def asyncTurnOn (g : FanGroup) (speed : Option PyStr) : FanGroup × List ServiceCall :=
  match speed with
  | some s =>
    if s = SPEED_OFF then asyncTurnOff g
    else (g, [ServiceCall.turnOn g.entityIds (some s)])
  | none => (g, [ServiceCall.turnOn g.entityIds none])

/-- Model of `FanGroup.async_oscillate` (fan.py line 153). -/
def asyncOscillate (g : FanGroup) (oscillating : Bool) : FanGroup × List ServiceCall :=
  (g, [ServiceCall.oscillate g.entityIds oscillating])

/-- Model of `FanGroup.async_set_speed` (fan.py line 164): `if speed is SPEED_OFF`
(object identity) delegate to turn-off, else one set-speed fan-out. -/
def asyncSetSpeed (g : FanGroup) (speed : PyStr) : FanGroup × List ServiceCall :=
  if speed = SPEED_OFF then asyncTurnOff g
  else (g, [ServiceCall.setSpeed g.entityIds speed])

/-- Model of `FanGroup.async_set_direction` (fan.py line 178). -/
def asyncSetDirection (g : FanGroup) (direction : PyStr) : FanGroup × List ServiceCall :=
  (g, [ServiceCall.setDirection g.entityIds direction])

/-- One invocation of a command method with its arguments. -/
inductive FanCommand where
  | turnOn (speed : Option PyStr)
  | turnOff
  | oscillate (oscillating : Bool)
  | setSpeed (speed : PyStr)
  | setDirection (direction : PyStr)
deriving DecidableEq

/-- Run a command method on the entity, returning the entity afterwards
together with the fan-out calls handed to the dispatcher. The dispatcher's
outcome is not consumed by any method body, so the entity component below
is what the entity is whether the dispatch succeeds or raises. -/
def runCommand (g : FanGroup) : FanCommand → FanGroup × List ServiceCall
  | .turnOn s => asyncTurnOn g s
  | .turnOff => asyncTurnOff g
  | .oscillate o => asyncOscillate g o
  | .setSpeed s => asyncSetSpeed g s
  | .setDirection d => asyncSetDirection g d

/-- Model of `DEFAULT_NAME` (fan.py line 40), exactly as written in the source. -/
def DEFAULT_NAME : String := "Fan SwGroupitch"

/-- The name the platform schema assigns:
`vol.Optional(CONF_NAME, default=DEFAULT_NAME)` (fan.py line 44), i.e. the
configured name when present, `DEFAULT_NAME` otherwise. -/
def configuredName (conf : Option String) : String :=
  conf.getD DEFAULT_NAME

/-- Concrete snapshot used to witness claim C1: members with speeds
"low", "low", "high". -/
def snapC1 : List (Option PState) :=
  [some ⟨"on", [("speed", .pstr "low")]⟩,
   some ⟨"off", [("speed", .pstr "low")]⟩,
   some ⟨"off", [("speed", .pstr "high")]⟩]

/-- The aggregate state `asyncUpdate` computes on `snapC1`. -/
def aggC1 : FanGroupState :=
  ⟨true, true, none, none, none, some (.pstr "low"), 0⟩

/-- Concrete well-typed snapshot used to witness claim C2. -/
def snapC2 : List (Option PState) :=
  [some ⟨"on", [("direction", .pint 6), ("oscillating", .pbool true),
     ("speed", .pstr "low"), ("speed_list", .plist ["low"]),
     ("supported_features", .pint 5)]⟩,
   some ⟨"on", [("direction", .pint 3), ("oscillating", .pbool false)]⟩]

/-- Concrete snapshot used to witness claim C3: an `on` member with
direction 2 and an `off` member with direction 9. -/
def snapC3 : List (Option PState) :=
  [some ⟨"on", [("direction", .pint 2)]⟩,
   some ⟨"off", [("direction", .pint 9)]⟩]

/-- The aggregate state `asyncUpdate` computes on `snapC3`: the `off`
member's direction 9 does not enter. -/
def aggC3 : FanGroupState :=
  ⟨true, true, some (.pint 2), none, none, none, 0⟩

/-- Concrete group entity used in the claim C4 evidence. -/
def sampleGroup : FanGroup :=
  ⟨"fans", ["fan.a"], ⟨false, false, none, none, none, none, 0⟩⟩

/-- Concrete snapshot used to witness claim C5: capability masks 13 and 3
(OR 15, masked to 7). -/
def snapC5 : List (Option PState) :=
  [some ⟨"on", [("supported_features", .pint 13)]⟩,
   some ⟨"off", [("supported_features", .pint 3)]⟩]

/-- The aggregate state `asyncUpdate` computes on `snapC5`. -/
def aggC5 : FanGroupState :=
  ⟨true, true, none, none, none, none, 7⟩

/-- Concrete snapshot used to witness claim C6: two members with
speed-lists. -/
def snapC6 : List (Option PState) :=
  [some ⟨"on", [("speed_list", .plist ["low", "high"])]⟩,
   some ⟨"off", [("speed_list", .plist ["high", "max"])]⟩]

/-- The aggregate state `asyncUpdate` computes on `snapC6`. -/
def aggC6 : FanGroupState :=
  ⟨true, true, none, none,
   some (List.foldl (fun acc l => acc ∪ l.toFinset) ∅ [["low", "high"], ["high", "max"]]),
   none, 0⟩

/-- Concrete snapshot used to witness claim C7: one unavailable member and
one `off` member. -/
def snapC7 : List (Option PState) :=
  [some ⟨"unavailable", []⟩, some ⟨"off", []⟩]

/-- The aggregate state `asyncUpdate` computes on `snapC7`. -/
def aggC7 : FanGroupState :=
  ⟨false, true, none, none, none, none, 0⟩

/-- Concrete snapshot used to witness claim C10: a single `on` member. -/
def snapC10 : List (Option PState) :=
  [some ⟨"on", []⟩]

/-- The aggregate state `asyncUpdate` computes on `snapC10`. -/
def aggC10 : FanGroupState :=
  ⟨true, true, none, none, none, none, 0⟩

/-! ### Basic properties of the Python value equality -/

theorem pyEq_iff {a b : PyVal} : pyEq a b = true ↔ pyKey a = pyKey b := by
  simp [pyEq]

theorem pyEq_refl (a : PyVal) : pyEq a a = true := by
  simp [pyEq]

theorem pyEq_comm (a b : PyVal) : pyEq a b = pyEq b a := by
  unfold pyEq
  by_cases h : pyKey a = pyKey b
  · rw [h]
  · have h' : pyKey b ≠ pyKey a := fun hh => h hh.symm
    simp [h, h']

theorem pyEq_trans {a b c : PyVal} (h1 : pyEq a b = true) (h2 : pyEq b c = true) :
    pyEq a c = true := by
  rw [pyEq_iff] at h1 h2 ⊢
  exact h1.trans h2

theorem pyEq_pred_ext {w v : PyVal} (h : pyEq w v = true) :
    (fun z => pyEq z w) = (fun z => pyEq z v) := by
  funext z
  unfold pyEq
  rw [pyEq_iff.mp h]

theorem pyCount_congr (xs : List PyVal) {w v : PyVal} (h : pyEq w v = true) :
    pyCount xs w = pyCount xs v := by
  unfold pyCount
  rw [pyEq_pred_ext h]

theorem pyIdxOf_congr (xs : List PyVal) {w v : PyVal} (h : pyEq w v = true) :
    pyIdxOf xs w = pyIdxOf xs v := by
  unfold pyIdxOf
  rw [pyEq_pred_ext h]

theorem pyIdxOf_cons_self {x : PyVal} {t : List PyVal} {v : PyVal}
    (h : pyEq x v = true) : pyIdxOf (x :: t) v = 0 := by
  unfold pyIdxOf
  rw [List.findIdx_cons, h]
  rfl

theorem pyIdxOf_cons_ne {x : PyVal} {t : List PyVal} {v : PyVal}
    (h : pyEq x v = false) : pyIdxOf (x :: t) v = pyIdxOf t v + 1 := by
  unfold pyIdxOf
  rw [List.findIdx_cons, h]
  rfl

/-! ### Properties of the first-occurrence (Counter key) order -/

theorem pyFirstOccs_subset : ∀ (xs : List PyVal) {w : PyVal},
    w ∈ pyFirstOccs xs → w ∈ xs
  | [], _, h => by simp [pyFirstOccs] at h
  | x :: t, w, h => by
    rw [pyFirstOccs] at h
    rcases List.mem_cons.mp h with h | h
    · exact h ▸ List.mem_cons_self x t
    · exact List.mem_cons_of_mem x (pyFirstOccs_subset t (List.mem_of_mem_filter h))

theorem pyFirstOccs_rep : ∀ (xs : List PyVal) {w : PyVal}, w ∈ xs →
    ∃ u ∈ pyFirstOccs xs, pyEq w u = true
  | [], _, h => absurd h (List.not_mem_nil _)
  | x :: t, w, h => by
    rw [pyFirstOccs]
    by_cases hx : pyEq w x = true
    · exact ⟨x, List.mem_cons_self _ _, hx⟩
    · have hw : w ∈ t := by
        rcases List.mem_cons.mp h with h | h
        · exact absurd (h ▸ pyEq_refl w) hx
        · exact h
      obtain ⟨u, hu, hwu⟩ := pyFirstOccs_rep t hw
      refine ⟨u, List.mem_cons_of_mem x (List.mem_filter.mpr ⟨hu, ?_⟩), hwu⟩
      have hux : pyEq u x = false := by
        by_contra hne
        have := pyEq_trans hwu (Bool.of_not_eq_false hne)
        exact hx this
      simp [hux]

theorem pyFirstOccs_eq_nil {xs : List PyVal} : pyFirstOccs xs = [] ↔ xs = [] := by
  cases xs with
  | nil => simp [pyFirstOccs]
  | cons x t => simp [pyFirstOccs]

theorem pyFirstOccs_pairwise_idx : ∀ (xs : List PyVal),
    (pyFirstOccs xs).Pairwise (fun a b => pyIdxOf xs a < pyIdxOf xs b)
  | [] => by simp [pyFirstOccs]
  | x :: t => by
    rw [pyFirstOccs]
    refine List.pairwise_cons.mpr ⟨?_, ?_⟩
    · intro b hb
      have hbx : pyEq b x = false := by
        have := (List.mem_filter.mp hb).2
        simpa using this
      have hxb : pyEq x b = false := (pyEq_comm x b).trans hbx
      rw [pyIdxOf_cons_self (pyEq_refl x), pyIdxOf_cons_ne hxb]
      exact Nat.succ_pos _
    · have hsub : List.Sublist ((pyFirstOccs t).filter (fun w => !pyEq w x))
          (pyFirstOccs t) := List.filter_sublist _
      have hpw := List.Pairwise.sublist hsub (pyFirstOccs_pairwise_idx t)
      refine hpw.imp_of_mem ?_
      intro a b ha hb hab
      have hax : pyEq x a = false := by
        have := (List.mem_filter.mp ha).2
        rw [pyEq_comm]
        simpa using this
      have hbx : pyEq x b = false := by
        have := (List.mem_filter.mp hb).2
        rw [pyEq_comm]
        simpa using this
      rw [pyIdxOf_cons_ne hax, pyIdxOf_cons_ne hbx]
      exact Nat.succ_lt_succ hab

/-! ### Properties of the tie-keeping maximum fold -/

theorem foldMax_nil (c : PyVal → Nat) (d : PyVal) : foldMax c d [] = d := rfl

theorem foldMax_cons (c : PyVal → Nat) (d v : PyVal) (rest : List PyVal) :
    foldMax c d (v :: rest) = foldMax c (if c d < c v then v else d) rest := rfl

theorem foldMax_mem (c : PyVal → Nat) : ∀ (ds : List PyVal) (d : PyVal),
    foldMax c d ds ∈ d :: ds
  | [], d => by simp [foldMax_nil]
  | v :: rest, d => by
    rw [foldMax_cons]
    have ih := foldMax_mem c rest (if c d < c v then v else d)
    rcases List.mem_cons.mp ih with h | h
    · rw [h]
      by_cases hc : c d < c v
      · simp [hc]
      · simp [hc]
    · simp [List.mem_cons_of_mem, h]

theorem foldMax_le (c : PyVal → Nat) : ∀ (ds : List PyVal) (d : PyVal),
    ∀ w ∈ d :: ds, c w ≤ c (foldMax c d ds)
  | [], d => by
    intro w hw
    rw [List.mem_singleton.mp hw, foldMax_nil]
  | v :: rest, d => by
    intro w hw
    rw [foldMax_cons]
    have ih := foldMax_le c rest (if c d < c v then v else d)
    have hd : c d ≤ c (if c d < c v then v else d) := by
      by_cases hc : c d < c v
      · simp [hc, Nat.le_of_lt hc]
      · simp [hc]
    have hv : c v ≤ c (if c d < c v then v else d) := by
      by_cases hc : c d < c v
      · simp [hc]
      · simp [hc, Nat.le_of_not_lt hc]
    have hmem : (if c d < c v then v else d) ∈ (if c d < c v then v else d) :: rest :=
      List.mem_cons_self _ _
    rcases List.mem_cons.mp hw with h | h
    · subst h
      exact Nat.le_trans hd (ih _ hmem)
    · rcases List.mem_cons.mp h with h | h
      · subst h
        exact Nat.le_trans hv (ih _ hmem)
      · exact ih w (List.mem_cons_of_mem _ h)

theorem foldMax_split (c : PyVal → Nat) : ∀ (ds : List PyVal) (d : PyVal),
    ∃ l1 l2, d :: ds = l1 ++ foldMax c d ds :: l2 ∧
      ∀ u ∈ l1, c u < c (foldMax c d ds)
  | [], d => ⟨[], [], by simp [foldMax_nil], by simp⟩
  | v :: rest, d => by
    rw [foldMax_cons]
    by_cases hc : c d < c v
    · rw [if_pos hc]
      obtain ⟨l1, l2, heq, hlt⟩ := foldMax_split c rest v
      refine ⟨d :: l1, l2, ?_, ?_⟩
      · rw [List.cons_append, ← heq]
      · intro u hu
        rcases List.mem_cons.mp hu with h | h
        · have hvle : c v ≤ c (foldMax c v rest) :=
            foldMax_le c rest v v (List.mem_cons_self _ _)
          exact h ▸ Nat.lt_of_lt_of_le hc hvle
        · exact hlt u h
    · rw [if_neg hc]
      obtain ⟨l1, l2, heq, hlt⟩ := foldMax_split c rest d
      cases l1 with
      | nil =>
        have hd : d = foldMax c d rest := (List.cons.injEq _ _ _ _ ▸ heq).1
        refine ⟨[], v :: rest, ?_, by simp⟩
        rw [List.nil_append, ← hd]
      | cons a l1' =>
        have h1 : a = d := by
          have := congrArg (fun l => l.head?) heq
          simpa using this.symm
        have h2 : rest = l1' ++ foldMax c d rest :: l2 := by
          have := congrArg (fun l => l.tail) heq
          simpa using this
        refine ⟨d :: v :: l1', l2, ?_, ?_⟩
        · simp only [List.cons_append]
          rw [← h2]
        · intro u hu
          have hda : c d < c (foldMax c d rest) := by
            have := hlt a (List.mem_cons_self _ _)
            rwa [h1] at this
          rcases List.mem_cons.mp hu with h | h
          · subst h
            exact hda
          · rcases List.mem_cons.mp h with h | h
            · subst h
              exact Nat.lt_of_le_of_lt (Nat.le_of_not_lt hc) hda
            · exact hlt u (List.mem_cons_of_mem a h)

/-! ### Characterisation of the Counter plurality vote -/

theorem mostCommon1_eq_none {xs : List PyVal} : mostCommon1 xs = none ↔ xs = [] := by
  unfold mostCommon1
  cases h : pyFirstOccs xs with
  | nil => simpa using pyFirstOccs_eq_nil.mp h
  | cons d ds =>
    simp only [reduceCtorEq, false_iff]
    intro hnil
    rw [hnil] at h
    simp [pyFirstOccs] at h

theorem mostCommon1_single (v : PyVal) : mostCommon1 [v] = some v := rfl

theorem mostCommon1_mem {xs : List PyVal} {v : PyVal}
    (h : mostCommon1 xs = some v) : v ∈ xs := by
  unfold mostCommon1 at h
  cases heq : pyFirstOccs xs with
  | nil => rw [heq] at h; exact absurd h (by simp)
  | cons d ds =>
    rw [heq] at h
    have hv : v = foldMax (pyCount xs) d ds := by
      simpa using h.symm
    rw [hv]
    exact pyFirstOccs_subset xs (heq ▸ foldMax_mem (pyCount xs) ds d)

theorem mostCommon1_max {xs : List PyVal} {v : PyVal}
    (h : mostCommon1 xs = some v) : ∀ w ∈ xs, pyCount xs w ≤ pyCount xs v := by
  intro w hw
  unfold mostCommon1 at h
  cases heq : pyFirstOccs xs with
  | nil => rw [heq] at h; exact absurd h (by simp)
  | cons d ds =>
    rw [heq] at h
    have hv : v = foldMax (pyCount xs) d ds := by
      simpa using h.symm
    obtain ⟨u, hu, hwu⟩ := pyFirstOccs_rep xs hw
    rw [pyCount_congr xs hwu, hv]
    exact foldMax_le (pyCount xs) ds d u (heq ▸ hu)

theorem mostCommon1_firstSeen {xs : List PyVal} {v : PyVal}
    (h : mostCommon1 xs = some v) :
    ∀ w ∈ xs, pyCount xs w = pyCount xs v → pyIdxOf xs v ≤ pyIdxOf xs w := by
  intro w hw hcnt
  unfold mostCommon1 at h
  cases heq : pyFirstOccs xs with
  | nil => rw [heq] at h; exact absurd h (by simp)
  | cons d ds =>
    rw [heq] at h
    have hv : v = foldMax (pyCount xs) d ds := by
      simpa using h.symm
    obtain ⟨u, hu, hwu⟩ := pyFirstOccs_rep xs hw
    have hcw : pyCount xs u = pyCount xs v := (pyCount_congr xs hwu).symm.trans hcnt
    have hiw : pyIdxOf xs w = pyIdxOf xs u := pyIdxOf_congr xs hwu
    rw [hiw]
    obtain ⟨l1, l2, hsplit, hlt⟩ := foldMax_split (pyCount xs) ds d
    rw [← hv] at hsplit hlt
    rw [heq, hsplit] at hu
    rcases List.mem_append.mp hu with hul | hur
    · exact absurd hcw (Nat.ne_of_lt (hlt u hul))
    · rcases List.mem_cons.mp hur with hue | hul2
      · subst hue
        exact Nat.le_refl _
      · have hpw := pyFirstOccs_pairwise_idx xs
        rw [heq, hsplit] at hpw
        have hvp := (List.pairwise_append.mp hpw).2.1
        have := (List.pairwise_cons.mp hvp).1 u hul2
        exact Nat.le_of_lt this

/-! ### Case analysis of the attribute reduction -/

theorem reduceAttribute_of_nil {s : List PState} {key : String} {d : Option PyVal}
    (h : findStateAttributes s key = []) : reduceAttribute s key d = .ok d := by
  unfold reduceAttribute
  rw [h]

theorem reduceAttribute_of_single {s : List PState} {key : String} {d : Option PyVal}
    {a : PyVal} (h : findStateAttributes s key = [a]) :
    reduceAttribute s key d = .ok (some a) := by
  unfold reduceAttribute
  rw [h]

theorem reduceAttribute_of_multi {s : List PState} {key : String} {d : Option PyVal}
    {a b : PyVal} {rest : List PyVal} {ns : List Int}
    (h : findStateAttributes s key = a :: b :: rest)
    (hn : mapPyNum (a :: b :: rest) = some ns) :
    reduceAttribute s key d =
      .ok (some (.pint (Int.tdiv ns.sum (ns.length : Int)))) := by
  simp [reduceAttribute, h, meanInt, hn]

theorem reduceAttribute_of_multi_nonnum {s : List PState} {key : String}
    {d : Option PyVal} {a b : PyVal} {rest : List PyVal}
    (h : findStateAttributes s key = a :: b :: rest)
    (hn : mapPyNum (a :: b :: rest) = none) :
    reduceAttribute s key d = .error "TypeError" := by
  simp [reduceAttribute, h, meanInt, hn]

/-! ### The speed-list, speed and feature steps -/

theorem mapIterStrs_plists : ∀ ls : List (List String),
    mapIterStrs (ls.map PyVal.plist) = .ok ls
  | [] => rfl
  | l :: ls => by
    rw [List.map_cons]
    unfold mapIterStrs
    rw [mapIterStrs_plists ls]
    rfl

theorem speedListAgg_plists {ls : List (List String)} (h : ls ≠ []) :
    speedListAgg (ls.map PyVal.plist) =
      .ok (some (ls.foldl (fun acc l => acc ∪ l.toFinset) ∅)) := by
  cases ls with
  | nil => exact absurd rfl h
  | cons l rest =>
    have hm := mapIterStrs_plists (l :: rest)
    rw [List.map_cons] at hm
    simp only [List.map_cons, speedListAgg, hm]

theorem mem_foldl_union : ∀ (ls : List (List String)) (acc : Finset String)
    (x : String), x ∈ ls.foldl (fun acc l => acc ∪ l.toFinset) acc ↔
      x ∈ acc ∨ ∃ l ∈ ls, x ∈ l
  | [], acc, x => by simp
  | l :: rest, acc, x => by
    rw [List.foldl_cons, mem_foldl_union rest]
    simp only [Finset.mem_union, List.mem_toFinset, List.mem_cons]
    constructor
    · rintro ((h | h) | ⟨m, hm, hx⟩)
      · exact Or.inl h
      · exact Or.inr ⟨l, Or.inl rfl, h⟩
      · exact Or.inr ⟨m, Or.inr hm, hx⟩
    · rintro (h | ⟨m, (hm | hm), hx⟩)
      · exact Or.inl (Or.inl h)
      · exact Or.inl (Or.inr (hm ▸ hx))
      · exact Or.inr ⟨m, hm, hx⟩

theorem speedAgg_ok_inv {vs : List PyVal} {sp : Option PyVal}
    (h : speedAgg vs = .ok sp) :
    vs.all pyHashable = true ∧ sp = mostCommon1 vs := by
  unfold speedAgg at h
  by_cases hh : vs.all pyHashable = true
  · rw [if_pos hh] at h
    exact ⟨hh, by simpa using h.symm⟩
  · rw [if_neg hh] at h
    exact absurd h (by simp)

theorem orFoldFeatures_ok : ∀ {vs : List PyVal} {ns : List Int} (acc : Int),
    mapPyNum vs = some ns → orFoldFeatures vs acc = .ok (ns.foldl Int.lor acc)
  | [], ns, acc, h => by
    unfold mapPyNum at h
    cases h
    rfl
  | v :: vs, ns, acc, h => by
    unfold mapPyNum at h
    cases hv : pyNum v with
    | none => rw [hv] at h; exact absurd h (by simp)
    | some n =>
      rw [hv] at h
      cases hm : mapPyNum vs with
      | none => rw [hm] at h; exact absurd h (by simp)
      | some ns' =>
        rw [hm] at h
        have hns : ns = n :: ns' := by simpa using h.symm
        subst hns
        unfold orFoldFeatures
        rw [hv, List.foldl_cons]
        exact orFoldFeatures_ok (Int.lor acc n) hm

theorem orFoldFeatures_ok_inv : ∀ {vs : List PyVal} {acc feat : Int},
    orFoldFeatures vs acc = .ok feat →
    ∃ ns, mapPyNum vs = some ns ∧ feat = ns.foldl Int.lor acc
  | [], acc, feat, h => by
    refine ⟨[], rfl, ?_⟩
    unfold orFoldFeatures at h
    simpa using h.symm
  | v :: vs, acc, feat, h => by
    unfold orFoldFeatures at h
    cases hv : pyNum v with
    | none => rw [hv] at h; exact absurd h (by simp)
    | some n =>
      rw [hv] at h
      obtain ⟨ns', hm, hf⟩ := orFoldFeatures_ok_inv h
      refine ⟨n :: ns', ?_, ?_⟩
      · unfold mapPyNum
        rw [hv, hm]
      · rw [List.foldl_cons]
        exact hf

/-! ### Decomposing a successful update -/

theorem asyncUpdate_ok_elim {all : List (Option PState)} {g : FanGroupState}
    (h : asyncUpdate all = .ok g) :
    ∃ dir osc sl sp feat,
      reduceAttribute (onStatesOf all) ATTR_DIRECTION none = .ok dir ∧
      reduceAttribute (onStatesOf all) ATTR_OSCILLATING none = .ok osc ∧
      speedListAgg (findStateAttributes (statesOf all) ATTR_SPEED_LIST) = .ok sl ∧
      speedAgg (findStateAttributes (statesOf all) ATTR_SPEED) = .ok sp ∧
      orFoldFeatures (findStateAttributes (statesOf all) ATTR_SUPPORTED_FEATURES) 0
        = .ok feat ∧
      g = ⟨decide (0 < (onStatesOf all).length),
           (statesOf all).any (fun s => s.state != STATE_UNAVAILABLE),
           dir, osc, sl, sp, Int.land feat SUPPORT_GROUP_FAN⟩ := by
  simp only [asyncUpdate] at h
  split at h
  · exact absurd h (by simp)
  · exact absurd h (by simp)
  · split at h
    · exact absurd h (by simp)
    · split at h
      · exact absurd h (by simp)
      · split at h
        · exact absurd h (by simp)
        · injection h with h'
          subst h'
          refine ⟨_, _, _, _, _, ?_, ?_, ?_, ?_, ?_, rfl⟩ <;> assumption

theorem isOn_char (all : List (Option PState)) :
    decide (0 < (onStatesOf all).length) = true ↔
      ∃ s ∈ statesOf all, s.state = STATE_ON := by
  rw [decide_eq_true_iff, List.length_pos_iff_exists_mem]
  constructor
  · rintro ⟨s, hs⟩
    have := List.mem_filter.mp hs
    exact ⟨s, this.1, by simpa using this.2⟩
  · rintro ⟨s, hs, heq⟩
    exact ⟨s, List.mem_filter.mpr ⟨hs, by simpa using heq⟩⟩

theorem available_char (all : List (Option PState)) :
    (statesOf all).any (fun s => s.state != STATE_UNAVAILABLE) = true ↔
      ∃ s ∈ statesOf all, s.state ≠ STATE_UNAVAILABLE := by
  simp [List.any_eq_true, bne_iff_ne]

/-! ### Transfer of the bitwise operations to natural numbers -/

theorem lor_ofNat (m n : Nat) :
    Int.lor (Int.ofNat m) (Int.ofNat n) = Int.ofNat (Nat.lor m n) := rfl

theorem land_ofNat (m n : Nat) :
    Int.land (Int.ofNat m) (Int.ofNat n) = Int.ofNat (Nat.land m n) := rfl

theorem support_group_fan_eq : SUPPORT_GROUP_FAN = Int.ofNat 7 := rfl

theorem foldl_lor_ofNat : ∀ (ms : List Nat) (a : Nat),
    (ms.map Int.ofNat).foldl Int.lor (Int.ofNat a) = Int.ofNat (ms.foldl Nat.lor a)
  | [], a => rfl
  | m :: ms, a => by
    rw [List.map_cons, List.foldl_cons, List.foldl_cons, lor_ofNat]
    exact foldl_lor_ofNat ms (Nat.lor a m)

theorem testBit_land_seven {M k : Nat} (hk : 3 ≤ k) :
    (Nat.land M 7).testBit k = false := by
  show (M &&& 7).testBit k = false
  rw [Nat.testBit_and]
  have h7 : (7 : Nat).testBit k = false := by
    refine Nat.testBit_lt_two_pow ?_
    calc (7 : Nat) < 2 ^ 3 := by norm_num
    _ ≤ 2 ^ k := Nat.pow_le_pow_right (by norm_num) hk
  rw [h7, Bool.and_false]

/-! ### The claims -/

/-- Claim C1: on every snapshot on which the update succeeds, the aggregate
speed is unset when no member supplies a `speed` attribute; it is the single
collected value when exactly one is collected; and whenever it is set it is
a collected value of maximal multiplicity whose first occurrence in
member-list collection order is no later than that of any other value of
the same multiplicity (the `Counter.most_common(1)` plurality vote with
first-encountered tie-break). -/
theorem claimC1_speed_plurality (all : List (Option PState)) (g : FanGroupState)
    (h : asyncUpdate all = .ok g) :
    (findStateAttributes (statesOf all) ATTR_SPEED = [] → g.speed = none) ∧
    (∀ v, findStateAttributes (statesOf all) ATTR_SPEED = [v] → g.speed = some v) ∧
    (∀ v, g.speed = some v →
      v ∈ findStateAttributes (statesOf all) ATTR_SPEED ∧
      (∀ w ∈ findStateAttributes (statesOf all) ATTR_SPEED,
        pyCount (findStateAttributes (statesOf all) ATTR_SPEED) w ≤
          pyCount (findStateAttributes (statesOf all) ATTR_SPEED) v) ∧
      (∀ w ∈ findStateAttributes (statesOf all) ATTR_SPEED,
        pyCount (findStateAttributes (statesOf all) ATTR_SPEED) w =
          pyCount (findStateAttributes (statesOf all) ATTR_SPEED) v →
        pyIdxOf (findStateAttributes (statesOf all) ATTR_SPEED) v ≤
          pyIdxOf (findStateAttributes (statesOf all) ATTR_SPEED) w)) := by
  obtain ⟨dir, osc, sl, sp, feat, hdir, hosc, hsl, hsp, hfeat, hg⟩ :=
    asyncUpdate_ok_elim h
  obtain ⟨hhash, hspeq⟩ := speedAgg_ok_inv hsp
  subst hg
  refine ⟨?_, ?_, ?_⟩
  · intro hnil
    show sp = none
    rw [hspeq, hnil]
    rfl
  · intro v hv
    show sp = some v
    rw [hspeq, hv, mostCommon1_single]
  · intro v hv
    have hv' : mostCommon1 (findStateAttributes (statesOf all) ATTR_SPEED) = some v := by
      rw [← hspeq]
      exact hv
    exact ⟨mostCommon1_mem hv', mostCommon1_max hv', mostCommon1_firstSeen hv'⟩

/-- Claim C1 witness: a concrete three-member snapshot (speeds
"low", "low", "high") on which the update succeeds, the aggregate speed is
the plurality winner "low", and "low" is among the collected speeds. -/
theorem claimC1_speed_plurality_witness :
    asyncUpdate snapC1 = .ok aggC1 ∧ aggC1.speed = some (.pstr "low") ∧
    PyVal.pstr "low" ∈ findStateAttributes (statesOf snapC1) ATTR_SPEED :=
  ⟨rfl, rfl,
    ((claimC1_speed_plurality snapC1 aggC1 rfl).2.2 (.pstr "low") rfl).1⟩

/-- Claim C2 counterexample: the reducer can raise. Two members that are
`on` and carry ordinary string `direction` values ("forward", "reverse")
drive `_reduce_attribute` into `_mean_int("forward", "reverse")`, whose
`sum` raises `TypeError`; the update does not degrade to unset. -/
theorem claimC2_reducer_counterexample :
    asyncUpdate
      [some ⟨"on", [("direction", .pstr "forward")]⟩,
       some ⟨"on", [("direction", .pstr "reverse")]⟩] =
      .error "TypeError" := rfl

theorem reduceAttribute_ok_of {s : List PState} {key : String} (d : Option PyVal)
    (h : 2 ≤ (findStateAttributes s key).length →
      (mapPyNum (findStateAttributes s key)).isSome = true) :
    ∃ r, reduceAttribute s key d = .ok r := by
  cases hat : findStateAttributes s key with
  | nil => exact ⟨d, reduceAttribute_of_nil hat⟩
  | cons a tl =>
    cases tl with
    | nil => exact ⟨some a, reduceAttribute_of_single hat⟩
    | cons b rest =>
      rw [hat] at h
      have hs := h (by simp)
      cases hn : mapPyNum (a :: b :: rest) with
      | none => rw [hn] at hs; exact absurd hs (by simp)
      | some ns =>
        exact ⟨some (.pint (Int.tdiv ns.sum (ns.length : Int))),
          reduceAttribute_of_multi hat hn⟩

theorem mapIterStrs_ok_of : ∀ {vs : List PyVal},
    (∀ v ∈ vs, (pyIterStrs v).isOk = true) → ∃ ls, mapIterStrs vs = .ok ls
  | [], _ => ⟨[], rfl⟩
  | v :: vs, h => by
    have hv := h v (List.mem_cons_self _ _)
    cases hi : pyIterStrs v with
    | error e => rw [hi] at hv; exact absurd hv (by simp [Except.isOk, Except.toBool])
    | ok l =>
      obtain ⟨ls, hls⟩ := mapIterStrs_ok_of (fun w hw => h w (List.mem_cons_of_mem v hw))
      refine ⟨l :: ls, ?_⟩
      unfold mapIterStrs
      rw [hi, hls]

theorem mapPyNum_ok_of : ∀ {vs : List PyVal},
    (∀ v ∈ vs, (pyNum v).isSome = true) → ∃ ns, mapPyNum vs = some ns
  | [], _ => ⟨[], rfl⟩
  | v :: vs, h => by
    have hv := h v (List.mem_cons_self _ _)
    cases hi : pyNum v with
    | none => rw [hi] at hv; exact absurd hv (by simp)
    | some n =>
      obtain ⟨ns, hns⟩ := mapPyNum_ok_of (fun w hw => h w (List.mem_cons_of_mem v hw))
      refine ⟨n :: ns, ?_⟩
      unfold mapPyNum
      rw [hi, hns]

theorem speedListAgg_ok_of {vs : List PyVal}
    (h : ∀ v ∈ vs, (pyIterStrs v).isOk = true) :
    ∃ r, speedListAgg vs = .ok r := by
  cases vs with
  | nil => exact ⟨none, rfl⟩
  | cons v tl =>
    obtain ⟨ls, hls⟩ := mapIterStrs_ok_of h
    refine ⟨some (ls.foldl (fun acc l => acc ∪ l.toFinset) ∅), ?_⟩
    unfold speedListAgg
    rw [hls]

/-- Claim C2 (amended): the update raises no error provided the supplied
attribute values are of the shapes the reducer can digest: whenever two or
more `direction` (resp. `oscillating`) values are collected from the `on`
members they are all numeric (int/bool), every supplied `speed` is hashable
(not a list), every supplied `speed_list` is iterable (a list or string),
and every supplied `supported_features` is numeric. Absent attributes
always degrade to unset, but the unamended claim is refuted by
`claimC2_reducer_counterexample`: two `on` members with ordinary string
directions make `_mean_int` raise `TypeError`. -/
theorem claimC2_amended_no_raise (all : List (Option PState))
    (hdir : 2 ≤ (findStateAttributes (onStatesOf all) ATTR_DIRECTION).length →
      (mapPyNum (findStateAttributes (onStatesOf all) ATTR_DIRECTION)).isSome = true)
    (hosc : 2 ≤ (findStateAttributes (onStatesOf all) ATTR_OSCILLATING).length →
      (mapPyNum (findStateAttributes (onStatesOf all) ATTR_OSCILLATING)).isSome = true)
    (hsl : ∀ v ∈ findStateAttributes (statesOf all) ATTR_SPEED_LIST,
      (pyIterStrs v).isOk = true)
    (hsp : ∀ v ∈ findStateAttributes (statesOf all) ATTR_SPEED,
      pyHashable v = true)
    (hft : ∀ v ∈ findStateAttributes (statesOf all) ATTR_SUPPORTED_FEATURES,
      (pyNum v).isSome = true) :
    ∃ g, asyncUpdate all = .ok g := by
  obtain ⟨dir, hdirok⟩ := reduceAttribute_ok_of none hdir
  obtain ⟨osc, hoscok⟩ := reduceAttribute_ok_of none hosc
  obtain ⟨sl, hslok⟩ := speedListAgg_ok_of hsl
  obtain ⟨ns, hns⟩ := mapPyNum_ok_of hft
  have hftok := orFoldFeatures_ok 0 hns
  have hspall : (findStateAttributes (statesOf all) ATTR_SPEED).all pyHashable = true :=
    List.all_eq_true.mpr hsp
  have hspok : speedAgg (findStateAttributes (statesOf all) ATTR_SPEED) =
      .ok (mostCommon1 (findStateAttributes (statesOf all) ATTR_SPEED)) := by
    unfold speedAgg
    rw [if_pos hspall]
  refine ⟨⟨decide (0 < (onStatesOf all).length),
      (statesOf all).any (fun s => s.state != STATE_UNAVAILABLE),
      dir, osc, sl, mostCommon1 (findStateAttributes (statesOf all) ATTR_SPEED),
      Int.land (List.foldl Int.lor 0 ns) SUPPORT_GROUP_FAN⟩, ?_⟩
  simp only [asyncUpdate, hdirok, hoscok, hslok, hspok, hftok]

/-- Claim C2 witness: a concrete well-typed snapshot (numeric directions,
boolean oscillating flags, string speed, list speed-list, int features) on
which every typing hypothesis holds and the update indeed succeeds. -/
theorem claimC2_amended_no_raise_witness :
    (∀ v ∈ findStateAttributes (statesOf snapC2) ATTR_SPEED, pyHashable v = true) ∧
    ∃ g, asyncUpdate snapC2 = .ok g :=
  ⟨by decide,
    claimC2_amended_no_raise snapC2
      (by decide) (by decide) (by decide) (by decide) (by decide)⟩

/-- Claim C3: on every snapshot on which the update succeeds, the aggregate
`direction` and `oscillating` are computed from the `on`-status members
only — two updates whose `on`-member lists agree produce the same two
fields, so a non-`on` member's attributes never influence them — by the
reduce-attribute rule: zero collected values give the unset default `none`,
exactly one collected value is returned unchanged, and two or more numeric
values give the arithmetic mean truncated toward zero. -/
theorem claimC3_direction_oscillating (all : List (Option PState)) (g : FanGroupState)
    (h : asyncUpdate all = .ok g) :
    (findStateAttributes (onStatesOf all) ATTR_DIRECTION = [] → g.direction = none) ∧
    (∀ a, findStateAttributes (onStatesOf all) ATTR_DIRECTION = [a] →
      g.direction = some a) ∧
    (∀ a b rest ns, findStateAttributes (onStatesOf all) ATTR_DIRECTION = a :: b :: rest →
      mapPyNum (a :: b :: rest) = some ns →
      g.direction = some (.pint (Int.tdiv ns.sum (ns.length : Int)))) ∧
    (findStateAttributes (onStatesOf all) ATTR_OSCILLATING = [] → g.oscillating = none) ∧
    (∀ a, findStateAttributes (onStatesOf all) ATTR_OSCILLATING = [a] →
      g.oscillating = some a) ∧
    (∀ a b rest ns, findStateAttributes (onStatesOf all) ATTR_OSCILLATING = a :: b :: rest →
      mapPyNum (a :: b :: rest) = some ns →
      g.oscillating = some (.pint (Int.tdiv ns.sum (ns.length : Int)))) ∧
    (∀ all2 g2, asyncUpdate all2 = .ok g2 → onStatesOf all2 = onStatesOf all →
      g2.direction = g.direction ∧ g2.oscillating = g.oscillating) := by
  obtain ⟨dir, osc, sl, sp, feat, hdir, hosc, hsl, hsp, hfeat, hg⟩ :=
    asyncUpdate_ok_elim h
  subst hg
  refine ⟨?_, ?_, ?_, ?_, ?_, ?_, ?_⟩
  · intro hnil
    show dir = none
    rw [reduceAttribute_of_nil hnil] at hdir
    simpa using hdir.symm
  · intro a ha
    show dir = some a
    rw [reduceAttribute_of_single ha] at hdir
    simpa using hdir.symm
  · intro a b rest ns hm hn
    show dir = some (.pint (Int.tdiv ns.sum (ns.length : Int)))
    rw [reduceAttribute_of_multi hm hn] at hdir
    simpa using hdir.symm
  · intro hnil
    show osc = none
    rw [reduceAttribute_of_nil hnil] at hosc
    simpa using hosc.symm
  · intro a ha
    show osc = some a
    rw [reduceAttribute_of_single ha] at hosc
    simpa using hosc.symm
  · intro a b rest ns hm hn
    show osc = some (.pint (Int.tdiv ns.sum (ns.length : Int)))
    rw [reduceAttribute_of_multi hm hn] at hosc
    simpa using hosc.symm
  · intro all2 g2 h2 hsame
    obtain ⟨dir2, osc2, sl2, sp2, feat2, hdir2, hosc2, hsl2, hsp2, hfeat2, hg2⟩ :=
      asyncUpdate_ok_elim h2
    subst hg2
    rw [hsame] at hdir2 hosc2
    constructor
    · show dir2 = dir
      rw [hdir] at hdir2
      have hd : dir = dir2 := by simpa using hdir2
      exact hd.symm
    · show osc2 = osc
      rw [hosc] at hosc2
      have ho : osc = osc2 := by simpa using hosc2
      exact ho.symm

/-- Claim C3 witness: a concrete snapshot with one `on` member and one
`off` member both supplying directions; the aggregate direction is the
`on` member's value alone (the `off` member's value 9 does not enter), and
a second snapshot with the same `on` members but a different `off` member
yields the same direction and oscillating fields. -/
theorem claimC3_direction_oscillating_witness :
    asyncUpdate snapC3 = .ok aggC3 ∧ aggC3.direction = some (.pint 2) :=
  ⟨rfl, (claimC3_direction_oscillating snapC3 aggC3 rfl).2.1 (.pint 2) rfl⟩

/-- Claim C4 (code-bug evidence): `async_turn_on` and `async_set_speed`
compare the speed argument with `is SPEED_OFF` (object identity), not with
`==`. A string object whose content equals the "off" sentinel value but
which is not the interned constant object (identity tag 1, e.g. a string
parsed from a JSON service payload) is forwarded to the dispatcher as a
set-speed / turn-on fan-out and never routed to turn-off, contradicting
the claim; the sentinel object itself is routed to turn-off. -/
theorem claimC4_off_sentinel_identity_bug :
    (PyStr.mk "off" 1).content = SPEED_OFF.content ∧
    asyncSetSpeed sampleGroup ⟨"off", 1⟩ =
      (sampleGroup, [ServiceCall.setSpeed ["fan.a"] ⟨"off", 1⟩]) ∧
    asyncTurnOn sampleGroup (some ⟨"off", 1⟩) =
      (sampleGroup, [ServiceCall.turnOn ["fan.a"] (some ⟨"off", 1⟩)]) ∧
    asyncSetSpeed sampleGroup SPEED_OFF =
      (sampleGroup, [ServiceCall.turnOff ["fan.a"]]) ∧
    asyncTurnOn sampleGroup (some SPEED_OFF) =
      (sampleGroup, [ServiceCall.turnOff ["fan.a"]]) :=
  ⟨rfl, by decide, by decide, by decide, by decide⟩

/-- Claim C5: on every snapshot on which the update succeeds, the
aggregate supported features equal the bitwise OR of every supplied
capability value, bitwise-ANDed with the constant group mask
`SUPPORT_GROUP_FAN`; and when the supplied values are natural numbers the
result is non-negative with every bit above the mask's three low bits
clear, even if a member reported such a bit. -/
theorem claimC5_supported_features (all : List (Option PState)) (g : FanGroupState)
    (h : asyncUpdate all = .ok g) :
    (∃ ns, mapPyNum (findStateAttributes (statesOf all) ATTR_SUPPORTED_FEATURES)
        = some ns ∧
      g.supported_features = Int.land (List.foldl Int.lor 0 ns) SUPPORT_GROUP_FAN) ∧
    (∀ ms : List Nat,
      mapPyNum (findStateAttributes (statesOf all) ATTR_SUPPORTED_FEATURES)
        = some (ms.map Int.ofNat) →
      0 ≤ g.supported_features ∧
      ∀ k, 3 ≤ k → g.supported_features.toNat.testBit k = false) := by
  obtain ⟨dir, osc, sl, sp, feat, hdir, hosc, hsl, hsp, hfeat, hg⟩ :=
    asyncUpdate_ok_elim h
  obtain ⟨ns, hns, hfe⟩ := orFoldFeatures_ok_inv hfeat
  subst hg
  constructor
  · refine ⟨ns, hns, ?_⟩
    show Int.land feat SUPPORT_GROUP_FAN = _
    rw [hfe]
  · intro ms hms
    have hns' : ns = ms.map Int.ofNat := by
      rw [hns] at hms
      exact Option.some.inj hms
    have hfeat_eq : feat = Int.ofNat (ms.foldl Nat.lor 0) := by
      rw [hfe, hns', show (0 : Int) = Int.ofNat 0 from rfl, foldl_lor_ofNat]
    have hsup : Int.land feat SUPPORT_GROUP_FAN =
        Int.ofNat (Nat.land (ms.foldl Nat.lor 0) 7) := by
      rw [hfeat_eq, support_group_fan_eq, land_ofNat]
    constructor
    · show 0 ≤ Int.land feat SUPPORT_GROUP_FAN
      rw [hsup]
      exact Int.ofNat_nonneg _
    · intro k hk
      show (Int.land feat SUPPORT_GROUP_FAN).toNat.testBit k = false
      rw [hsup]
      show (Nat.land (ms.foldl Nat.lor 0) 7).testBit k = false
      exact testBit_land_seven hk

/-- Claim C5 witness: members report capability masks 13 and 3; the OR is
15 and the aggregate is masked down to 7, non-negative, with bit 3
(reported by the first member) cleared. -/
theorem claimC5_supported_features_witness :
    asyncUpdate snapC5 = .ok aggC5 ∧ aggC5.supported_features = 7 ∧
    0 ≤ aggC5.supported_features ∧
    aggC5.supported_features.toNat.testBit 3 = false :=
  ⟨rfl, rfl,
    ((claimC5_supported_features snapC5 aggC5 rfl).2 [13, 3] (by decide)).1,
    ((claimC5_supported_features snapC5 aggC5 rfl).2 [13, 3] (by decide)).2 3
      (by decide)⟩

/-- Claim C6: on every snapshot on which the update succeeds, the
aggregate speed list is unset when no member (of the full list) supplies a
speed-list attribute, and otherwise is exactly the set union of all the
supplied speed-lists. -/
theorem claimC6_speed_list_union (all : List (Option PState)) (g : FanGroupState)
    (h : asyncUpdate all = .ok g) :
    (findStateAttributes (statesOf all) ATTR_SPEED_LIST = [] → g.speed_list = none) ∧
    (∀ ls : List (List String), ls ≠ [] →
      findStateAttributes (statesOf all) ATTR_SPEED_LIST = ls.map PyVal.plist →
      ∃ S, g.speed_list = some S ∧ ∀ x, x ∈ S ↔ ∃ l ∈ ls, x ∈ l) := by
  obtain ⟨dir, osc, sl, sp, feat, hdir, hosc, hsl, hsp, hfeat, hg⟩ :=
    asyncUpdate_ok_elim h
  subst hg
  constructor
  · intro hnil
    show sl = none
    rw [hnil] at hsl
    have hsl' : (Except.ok (none : Option (Finset String)) :
        Except String (Option (Finset String))) = .ok sl := hsl
    have : none = sl := by simpa using hsl'
    exact this.symm
  · intro ls hne hmap
    rw [hmap, speedListAgg_plists hne] at hsl
    refine ⟨ls.foldl (fun acc l => acc ∪ l.toFinset) ∅, ?_, ?_⟩
    · show sl = some _
      have : some (ls.foldl (fun acc l => acc ∪ l.toFinset) ∅) = sl := by
        simpa using hsl
      exact this.symm
    · intro x
      rw [mem_foldl_union]
      simp

/-- Claim C6 witness: members supply speed-lists ["low","high"] and
["high","max"]; the aggregate is set and equals their union. -/
theorem claimC6_speed_list_union_witness :
    asyncUpdate snapC6 = .ok aggC6 ∧
    ∃ S, aggC6.speed_list = some S ∧
      ∀ x, x ∈ S ↔ ∃ l ∈ [["low", "high"], ["high", "max"]], x ∈ l :=
  ⟨rfl,
    (claimC6_speed_list_union snapC6 aggC6 rfl).2 [["low", "high"], ["high", "max"]]
      (by decide) rfl⟩

/-- Claim C7: on every snapshot on which the update succeeds, the
aggregate availability is true exactly when at least one resolvable member
has a status other than `unavailable`, and is false on an empty
snapshot. -/
theorem claimC7_available_iff (all : List (Option PState)) (g : FanGroupState)
    (h : asyncUpdate all = .ok g) :
    (g.available = true ↔ ∃ s ∈ statesOf all, s.state ≠ STATE_UNAVAILABLE) ∧
    (statesOf all = [] → g.available = false) := by
  obtain ⟨dir, osc, sl, sp, feat, hdir, hosc, hsl, hsp, hfeat, hg⟩ :=
    asyncUpdate_ok_elim h
  subst hg
  constructor
  · exact available_char all
  · intro hnil
    show (statesOf all).any (fun s => s.state != STATE_UNAVAILABLE) = false
    rw [hnil]
    rfl

/-- Claim C7 witness: one unavailable and one `off` member; the group is
available because of the `off` member. -/
theorem claimC7_available_iff_witness :
    asyncUpdate snapC7 = .ok aggC7 ∧
    (aggC7.available = true ↔ ∃ s ∈ statesOf snapC7, s.state ≠ STATE_UNAVAILABLE) :=
  ⟨rfl, (claimC7_available_iff snapC7 aggC7 rfl).1⟩

/-- Claim C8: every command method (turn on with or without a speed, turn
off, oscillate, set speed, set direction) returns the entity unchanged —
in particular its aggregate state is untouched. The methods only emit
fan-out calls and never consume the dispatcher's outcome, so the entity
component of `runCommand` is the entity's state whether the dispatch
succeeds or fails; only `asyncUpdate` recomputes the aggregate. -/
theorem claimC8_commands_preserve_state (g : FanGroup) (c : FanCommand) :
    (runCommand g c).1 = g ∧ (runCommand g c).1.agg = g.agg := by
  have h1 : (runCommand g c).1 = g := by
    cases c with
    | turnOn s =>
      show (asyncTurnOn g s).1 = g
      unfold asyncTurnOn
      cases s with
      | none => rfl
      | some s =>
        by_cases hs : s = SPEED_OFF
        · simp only [if_pos hs]
          rfl
        · simp only [if_neg hs]
    | turnOff => rfl
    | oscillate o => rfl
    | setSpeed s =>
      show (asyncSetSpeed g s).1 = g
      unfold asyncSetSpeed
      by_cases hs : s = SPEED_OFF
      · simp only [if_pos hs]
        rfl
      · simp only [if_neg hs]
    | setDirection d => rfl
  exact ⟨h1, by rw [h1]⟩

/-- Claim C9 (code-bug evidence): when no name is configured the schema
default applies, and the source's `DEFAULT_NAME` is the misspelled string
"Fan SwGroupitch" ("Group" pasted inside "Switch"), not the documented
"Fan Switch Group". -/
theorem claimC9_default_name_typo :
    configuredName none = "Fan SwGroupitch" ∧
    configuredName none ≠ "Fan Switch Group" :=
  ⟨rfl, by decide⟩

/-- Claim C10: on every snapshot on which the update succeeds, if the
group reports itself on (some member has status `on`) then it also reports
itself available, because an `on` member's status differs from
`unavailable`; the state (is_on, not available) is unreachable. -/
theorem claimC10_on_implies_available (all : List (Option PState))
    (g : FanGroupState) (h : asyncUpdate all = .ok g) (hon : g.is_on = true) :
    g.available = true := by
  obtain ⟨dir, osc, sl, sp, feat, hdir, hosc, hsl, hsp, hfeat, hg⟩ :=
    asyncUpdate_ok_elim h
  subst hg
  have hon' : decide (0 < (onStatesOf all).length) = true := hon
  obtain ⟨s, hs, hson⟩ := (isOn_char all).mp hon'
  show (statesOf all).any (fun s => s.state != STATE_UNAVAILABLE) = true
  refine (available_char all).mpr ⟨s, hs, ?_⟩
  rw [hson]
  decide

/-- Claim C10 witness: a single `on` member; the group is on and
available. -/
theorem claimC10_on_implies_available_witness :
    asyncUpdate snapC10 = .ok aggC10 ∧ aggC10.is_on = true ∧
    aggC10.available = true :=
  ⟨rfl, rfl, claimC10_on_implies_available snapC10 aggC10 rfl rfl⟩
